import Mathlib

/-!
Verification of the customer-response chat application
(src/Customer_App.py) against its natural-language specification.

The development shallowly embeds the Python script: the credential
resolution (lines 15-18), the gate checks (lines 60-67), the cached
engine build (lines 36-56, via its caching contract), and the chat
turn loop (lines 72-101).  Stateful script execution is modelled as a
pure function from the inputs of one script run (resolved credential,
query parameters, prior session state, submitted prompt, engine
behaviour) to the resulting session state plus an ordered trace of the
observable effects the run performs.
-/

/-- Role of a chat turn, mirroring the `"role"` field of the message
dicts stored in `st.session_state.messages`. -/
inductive Role
  | user
  | assistant
deriving DecidableEq, Repr

/-- One chat turn: embeds the dict `{"role": ..., "content": ...}`
appended to `st.session_state.messages` (lines 73, 83, 101). -/
structure ChatTurn where
  role : Role
  content : String
deriving DecidableEq, Repr

/-- ConversationState: the ordered transcript held in
`st.session_state.messages`. -/
abbrev ConversationState := List ChatTurn

/-- The seeded assistant greeting installed at line 73 when
`"messages"` is not yet in `st.session_state`. -/
def seedGreeting : ChatTurn :=
  ⟨Role.assistant, "Hello! How can I assist you today based on our knowledge base?"⟩

/-- The two exception classes caught at line 17: `KeyError` (name not
in the secret store) and `FileNotFoundError` (no secrets file
configured / store unreachable). -/
inductive SecretsErr
  | keyError
  | fileNotFoundError
deriving DecidableEq, Repr

/-- Embeds lines 15-18: `try: GROQ_API_KEY = st.secrets["GROQ_API_KEY"]
except (KeyError, FileNotFoundError): GROQ_API_KEY = os.getenv("GROQ_API_KEY")`.
The secret-store lookup either yields a string or raises one of the two
caught errors; `os.getenv` yields `none` when the variable is unset.
The result is `none` exactly when both sources fail. -/
def resolveCredential (secrets : Except SecretsErr String) (env : Option String) :
    Option String :=
  match secrets with
  | Except.ok v => some v
  | Except.error _ => env

/-- Python truthiness of the resolved credential as tested at line 60
by `if not GROQ_API_KEY:` — falsy when the value is `None` or the
empty string. -/
def pyFalsy : Option String → Bool
  | none => true
  | some s => s == ""

/-- Key membership in the request query parameters, embedding the test
`'session_id' in st.query_params` (line 65); `in` on the mapping
consults keys only, never values. -/
def hasKey (qp : List (String × String)) (k : String) : Bool :=
  qp.any (fun p => p.1 == k)

/-- Decision of the access gate. -/
inductive GateDecision
  | allowed
  | denied
deriving DecidableEq, Repr

/-- The access gate of line 65: allowed exactly when the request's
query parameters carry the key `session_id`; the value is never
inspected. -/
def gateCheck (qp : List (String × String)) : GateDecision :=
  if hasKey qp "session_id" then GateDecision.allowed else GateDecision.denied

/-- Observable effects of one script run, in execution order. -/
inductive Ev
  | errorCredential
  | warnAccess
  | getOrBuild
  | appendUser (p : String)
  | queryEngine (p : String)
  | appendAssistant (content : String)
  | raiseQuery
deriving DecidableEq, Repr

/-- Result of one script run: the session transcript afterwards
(`none` when `st.session_state.messages` was never created), the
ordered effect trace, and whether the run ended in an uncaught
exception. -/
structure RunResult where
  messages : Option ConversationState
  trace : List Ev
  raised : Bool
deriving DecidableEq, Repr

/-- Behaviour of one engine query (lines 91-96): the fragments the
stream yields in order, paired with `true` when the stream raises
after those fragments instead of finishing normally. -/
abbrev StreamBehavior := List String × Bool

/-- Embeds the main application logic, lines 60-101, for one script
run.  Inputs: the resolved `GROQ_API_KEY`, the request query
parameters, the prior `st.session_state.messages` (if any), the text
submitted to `st.chat_input` (if any; Streamlit's walrus test at line
81 also skips an empty string), and the engine's streaming behaviour
per prompt.  The body follows the source line by line: credential
check (60), gate (65), `load_query_engine()` (69), history seeding
(72-73), user-turn append (83), query and stream accumulation
(91-98), assistant-turn commit (101). -/
def runApp (GROQ_API_KEY : Option String) (query_params : List (String × String))
    (prior : Option ConversationState) (prompt : Option String)
    (engine : String → StreamBehavior) : RunResult :=
  if pyFalsy GROQ_API_KEY then
    { messages := prior, trace := [Ev.errorCredential], raised := false }
  else
    match gateCheck query_params with
    | GateDecision.denied =>
        { messages := prior, trace := [Ev.warnAccess], raised := false }
    | GateDecision.allowed =>
        let msgs0 := prior.getD [seedGreeting]
        match prompt with
        | none => { messages := some msgs0, trace := [Ev.getOrBuild], raised := false }
        | some p =>
          if p = "" then
            { messages := some msgs0, trace := [Ev.getOrBuild], raised := false }
          else
            let msgs1 := msgs0 ++ [⟨Role.user, p⟩]
            match engine p with
            | (_, true) =>
                { messages := some msgs1,
                  trace := [Ev.getOrBuild, Ev.appendUser p, Ev.queryEngine p, Ev.raiseQuery],
                  raised := true }
            | (frags, false) =>
                let full_response := frags.foldl (fun r s => r ++ s) ""
                { messages := some (msgs1 ++ [⟨Role.assistant, full_response⟩]),
                  trace := [Ev.getOrBuild, Ev.appendUser p, Ev.queryEngine p,
                            Ev.appendAssistant full_response],
                  raised := false }

/-- Helper: key membership in the query parameters follows from a
key/value pair being present. -/
theorem hasKey_of_mem (qp : List (String × String)) (k v : String)
    (h : (k, v) ∈ qp) : hasKey qp k = true := by
  unfold hasKey
  rw [List.any_eq_true]
  exact ⟨(k, v), h, by simp⟩

/-- C4: if the deployment secret store provides a non-empty value for
the credential name, the resolved Credential equals that value,
regardless of what the local environment variable holds. -/
theorem secret_store_priority (v : String) (env : Option String) (_hv : v ≠ "") :
    resolveCredential (Except.ok v) env = some v := rfl

theorem secret_store_priority_witness :
    ("sk-live-123" : String) ≠ "" ∧
    resolveCredential (Except.ok "sk-live-123") (some "sk-local-456") = some "sk-live-123" :=
  ⟨by decide, secret_store_priority "sk-live-123" (some "sk-local-456") (by decide)⟩

/-- C5: when both credential sources fail (for either caught secret
store error, the store unreachable/unconfigured or the key missing,
together with an unset environment variable), resolution returns
Absent without raising, and the run reports the credential-missing
error as its only effect while the process continues (no uncaught
exception). -/
theorem both_sources_fail_absent_nonfatal (e : SecretsErr)
    (qp : List (String × String)) (prior : Option ConversationState)
    (prompt : Option String) (engine : String → StreamBehavior) :
    resolveCredential (Except.error e) none = none ∧
    (runApp none qp prior prompt engine).trace = [Ev.errorCredential] ∧
    (runApp none qp prior prompt engine).raised = false := by
  refine ⟨rfl, ?_, ?_⟩ <;> simp [runApp, pyFalsy]

/-- C6: when the access parameter `session_id` is absent from the
query parameters, the cached engine loader is never invoked, and the
user is shown a blocking notice (the credential error or the access
warning) instead. -/
theorem gate_denied_no_build (key : Option String) (qp : List (String × String))
    (prior : Option ConversationState) (prompt : Option String)
    (engine : String → StreamBehavior)
    (hq : hasKey qp "session_id" = false) :
    Ev.getOrBuild ∉ (runApp key qp prior prompt engine).trace ∧
    (Ev.errorCredential ∈ (runApp key qp prior prompt engine).trace ∨
     Ev.warnAccess ∈ (runApp key qp prior prompt engine).trace) := by
  by_cases hk : pyFalsy key = true
  · simp [runApp, hk]
  · simp only [Bool.not_eq_true] at hk
    simp [runApp, hk, gateCheck, hq]

theorem gate_denied_no_build_witness :
    hasKey [("other", "1")] "session_id" = false ∧
    (Ev.getOrBuild ∉
      (runApp (some "k") [("other", "1")] none none (fun _ => ([], false))).trace ∧
     (Ev.errorCredential ∈
        (runApp (some "k") [("other", "1")] none none (fun _ => ([], false))).trace ∨
      Ev.warnAccess ∈
        (runApp (some "k") [("other", "1")] none none (fun _ => ([], false))).trace)) :=
  ⟨by decide, gate_denied_no_build (some "k") [("other", "1")] none none
    (fun _ => ([], false)) (by decide)⟩

/-- C9: the access-gate decision depends only on the presence of the
named query parameter, never on its value: any two requests that both
carry the `session_id` key are both allowed, whatever their
(possibly different) values. -/
theorem gate_presence_only (qp1 qp2 : List (String × String)) (v1 v2 : String)
    (h1 : ("session_id", v1) ∈ qp1) (h2 : ("session_id", v2) ∈ qp2) :
    gateCheck qp1 = GateDecision.allowed ∧ gateCheck qp2 = GateDecision.allowed := by
  refine ⟨?_, ?_⟩
  · simp [gateCheck, hasKey_of_mem qp1 "session_id" v1 h1]
  · simp [gateCheck, hasKey_of_mem qp2 "session_id" v2 h2]

theorem gate_presence_only_witness :
    ("session_id", "alpha") ∈ [("session_id", "alpha")] ∧
    ("session_id", "totally-different") ∈ [("x", "1"), ("session_id", "totally-different")] ∧
    (gateCheck [("session_id", "alpha")] = GateDecision.allowed ∧
     gateCheck [("x", "1"), ("session_id", "totally-different")] = GateDecision.allowed) :=
  ⟨by decide, by decide,
   gate_presence_only [("session_id", "alpha")] [("x", "1"), ("session_id", "totally-different")]
     "alpha" "totally-different" (by decide) (by decide)⟩

/-- C10: a credential that resolves to the empty string is treated by
the gate exactly like an Absent credential: the whole run is identical
to the Absent run, its only effect is the credential-missing error,
and neither the engine build nor any turn-loop step executes. -/
theorem empty_credential_like_absent (qp : List (String × String))
    (prior : Option ConversationState) (prompt : Option String)
    (engine : String → StreamBehavior) :
    runApp (some "") qp prior prompt engine = runApp none qp prior prompt engine ∧
    (runApp (some "") qp prior prompt engine).trace = [Ev.errorCredential] ∧
    Ev.getOrBuild ∉ (runApp (some "") qp prior prompt engine).trace ∧
    (∀ p, Ev.appendUser p ∉ (runApp (some "") qp prior prompt engine).trace) := by
  refine ⟨?_, ?_, ?_, ?_⟩ <;> simp [runApp, pyFalsy]

/-- Helper: an assistant-free transcript extension ends in the turn
just appended. -/
theorem getLast_append_singleton (l : List ChatTurn) (a : ChatTurn) :
    (l ++ [a]).getLast? = some a := by
  simp [List.getLast?_concat]

/-- Helper: a run past both gates with a non-empty prompt and a
normally exhausting stream commits the user turn and then one
assistant turn holding the fold of the fragments. -/
theorem completed_turn_messages (key : Option String) (qp : List (String × String))
    (m : ConversationState) (p : String) (frags : List String)
    (hk : pyFalsy key = false) (hq : hasKey qp "session_id" = true) (hp : p ≠ "") :
    (runApp key qp (some m) (some p) (fun _ => (frags, false))).messages =
      some (m ++ [⟨Role.user, p⟩, ⟨Role.assistant, String.join frags⟩]) := by
  simp [runApp, hk, gateCheck, hq, hp, String.join]

/-- C2: for every finite fragment sequence yielded by the engine
stream (the empty one included), the assistant turn committed after
stream exhaustion is exactly the in-order concatenation of the
fragments — no fragment dropped, duplicated or reordered. -/
theorem stream_concat_committed (key : Option String) (qp : List (String × String))
    (m : ConversationState) (p : String) (frags : List String)
    (hk : pyFalsy key = false) (hq : hasKey qp "session_id" = true) (hp : p ≠ "") :
    (runApp key qp (some m) (some p) (fun _ => (frags, false))).messages =
      some (m ++ [⟨Role.user, p⟩, ⟨Role.assistant, String.join frags⟩]) :=
  completed_turn_messages key qp m p frags hk hq hp

theorem stream_concat_committed_witness :
    (pyFalsy (some "k") = false ∧ hasKey [("session_id", "x")] "session_id" = true ∧
      ("hi" : String) ≠ "") ∧
    (runApp (some "k") [("session_id", "x")] (some [seedGreeting]) (some "hi")
        (fun _ => (["Hel", "lo", " world"], false))).messages =
      some ([seedGreeting] ++ [⟨Role.user, "hi"⟩, ⟨Role.assistant, "Hello world"⟩]) :=
  ⟨⟨rfl, rfl, by decide⟩, by
    have h := stream_concat_committed (some "k") [("session_id", "x")] [seedGreeting]
      "hi" ["Hel", "lo", " world"] rfl rfl (by decide)
    have hj : String.join ["Hel", "lo", " world"] = "Hello world" := rfl
    rw [hj] at h
    exact h⟩

/-- C3: for every submitted non-empty user text, the user turn is
appended before the engine query is issued (the append strictly
precedes the query in the effect trace); and when the query raises
mid-stream, the partially accumulated buffer is not committed: the
transcript ends with the user's turn and no assistant turn is added. -/
theorem user_turn_first_failure_uncommitted (key : Option String)
    (qp : List (String × String)) (prior : Option ConversationState) (p : String)
    (engine : String → StreamBehavior) (frags : List String)
    (hk : pyFalsy key = false) (hq : hasKey qp "session_id" = true) (hp : p ≠ "") :
    (∃ i j, i < j ∧
      (runApp key qp prior (some p) engine).trace.get? i = some (Ev.appendUser p) ∧
      (runApp key qp prior (some p) engine).trace.get? j = some (Ev.queryEngine p)) ∧
    (engine p = (frags, true) →
      (runApp key qp prior (some p) engine).messages =
        some (prior.getD [seedGreeting] ++ [⟨Role.user, p⟩]) ∧
      (prior.getD [seedGreeting] ++ [ChatTurn.mk Role.user p]).getLast? = some (ChatTurn.mk Role.user p)) := by
  rcases hep : engine p with ⟨fs, b⟩
  cases b
  · have ht : (runApp key qp prior (some p) engine).trace =
        [Ev.getOrBuild, Ev.appendUser p, Ev.queryEngine p,
         Ev.appendAssistant (fs.foldl (fun r s => r ++ s) "")] := by
      simp [runApp, hk, gateCheck, hq, hp, hep]
    refine ⟨⟨1, 2, ?_, ?_, ?_⟩, ?_⟩
    · omega
    · rw [ht]
      rfl
    · rw [ht]
      rfl
    · intro hcontr
      simp at hcontr
  · have ht : (runApp key qp prior (some p) engine).trace =
        [Ev.getOrBuild, Ev.appendUser p, Ev.queryEngine p, Ev.raiseQuery] := by
      simp [runApp, hk, gateCheck, hq, hp, hep]
    refine ⟨⟨1, 2, ?_, ?_, ?_⟩, ?_⟩
    · omega
    · rw [ht]
      rfl
    · rw [ht]
      rfl
    · intro _
      refine ⟨?_, getLast_append_singleton _ _⟩
      simp [runApp, hk, gateCheck, hq, hp, hep]

theorem user_turn_first_failure_uncommitted_witness :
    (pyFalsy (some "k") = false ∧ hasKey [("session_id", "x")] "session_id" = true ∧
      ("why?" : String) ≠ "") ∧
    ((∃ i j, i < j ∧
       (runApp (some "k") [("session_id", "x")] none (some "why?")
          (fun _ => (["par", "tial"], true))).trace.get? i = some (Ev.appendUser "why?") ∧
       (runApp (some "k") [("session_id", "x")] none (some "why?")
          (fun _ => (["par", "tial"], true))).trace.get? j = some (Ev.queryEngine "why?")) ∧
     ((fun _ => (["par", "tial"], true) : String → StreamBehavior) "why?" =
          (["par", "tial"], true) →
       (runApp (some "k") [("session_id", "x")] none (some "why?")
          (fun _ => (["par", "tial"], true))).messages =
         some ((none : Option ConversationState).getD [seedGreeting] ++
           [⟨Role.user, "why?"⟩]) ∧
       ((none : Option ConversationState).getD [seedGreeting] ++
           [ChatTurn.mk Role.user "why?"]).getLast? = some (ChatTurn.mk Role.user "why?"))) := by
  refine ⟨⟨rfl, rfl, by decide⟩, ?_⟩
  exact user_turn_first_failure_uncommitted (some "k") [("session_id", "x")] none "why?"
    (fun _ => (["par", "tial"], true)) ["par", "tial"] rfl rfl (by decide)

/-- An engine whose stream yields the given fragments and finishes
normally, whatever the prompt. -/
def okStream (frags : List String) : String → StreamBehavior := fun _ => (frags, false)

/-- One successfully completed turn of a session: the script rerun
triggered by submitting the prompt, with the engine streaming the
given fragments to exhaustion; yields the session transcript the run
leaves behind. -/
def runSessionTurn (key : Option String) (qp : List (String × String))
    (pr : String × List String) (prior : Option ConversationState) :
    Option ConversationState :=
  (runApp key qp prior (some pr.1) (okStream pr.2)).messages

/-- A whole session: the first page load (no prompt submitted), then
one script rerun per completed prompt/fragments pair. -/
def runSession (key : Option String) (qp : List (String × String))
    (pairs : List (String × List String)) : Option ConversationState :=
  pairs.foldl (fun prior pr => runSessionTurn key qp pr prior)
    ((runApp key qp none none (okStream [])).messages)

/-- Helper: a completed turn extends a present transcript by exactly
the user turn and the assembled assistant turn. -/
theorem runSessionTurn_eq (key : Option String) (qp : List (String × String))
    (p : String) (frags : List String) (m : ConversationState)
    (hk : pyFalsy key = false) (hq : hasKey qp "session_id" = true) (hp : p ≠ "") :
    runSessionTurn key qp (p, frags) (some m) =
      some (m ++ [⟨Role.user, p⟩, ⟨Role.assistant, String.join frags⟩]) := by
  unfold runSessionTurn okStream
  exact completed_turn_messages key qp m p frags hk hq hp

/-- Helper: folding completed turns over a present transcript keeps it
present and adds two turns per pair. -/
theorem foldTurns_length (key : Option String) (qp : List (String × String))
    (hk : pyFalsy key = false) (hq : hasKey qp "session_id" = true) :
    ∀ (pairs : List (String × List String)) (m : ConversationState),
      (∀ pr ∈ pairs, pr.1 ≠ "") →
      ∃ m', pairs.foldl (fun prior pr => runSessionTurn key qp pr prior) (some m) = some m' ∧
        m'.length = m.length + 2 * pairs.length := by
  intro pairs
  induction pairs with
  | nil => exact fun m _ => ⟨m, rfl, by simp⟩
  | cons pr rest ih =>
      intro m hps
      have hp : pr.1 ≠ "" := hps pr (List.mem_cons_self pr rest)
      have hstep : runSessionTurn key qp pr (some m) =
          some (m ++ [⟨Role.user, pr.1⟩, ⟨Role.assistant, String.join pr.2⟩]) := by
        rcases pr with ⟨p, frags⟩
        exact runSessionTurn_eq key qp p frags m hk hq hp
      rcases ih (m ++ [⟨Role.user, pr.1⟩, ⟨Role.assistant, String.join pr.2⟩])
          (fun q hq' => hps q (List.mem_cons_of_mem pr hq')) with ⟨m', hm', hlen⟩
      refine ⟨m', ?_, ?_⟩
      · rw [List.foldl_cons, hstep]
        exact hm'
      · rw [hlen]
        simp [List.length_append]
        omega

/-- C1: ConversationState is never empty after session start, and
after any sequence of K successfully completed user/assistant turn
pairs the transcript length is exactly 1 + 2*K (the seeded greeting
plus one user and one assistant turn per pair). -/
theorem conversation_length_invariant (key : Option String)
    (qp : List (String × String)) (pairs : List (String × List String))
    (hk : pyFalsy key = false) (hq : hasKey qp "session_id" = true)
    (hps : ∀ pr ∈ pairs, pr.1 ≠ "") :
    ∃ msgs, runSession key qp pairs = some msgs ∧ msgs ≠ [] ∧
      msgs.length = 1 + 2 * pairs.length := by
  have hinit : (runApp key qp none none (okStream [])).messages = some [seedGreeting] := by
    simp [runApp, hk, gateCheck, hq]
  rcases foldTurns_length key qp hk hq pairs [seedGreeting] hps with ⟨m', hm', hlen⟩
  refine ⟨m', ?_, ?_, ?_⟩
  · unfold runSession
    rw [hinit]
    exact hm'
  · have : 0 < m'.length := by rw [hlen]; simp
    exact List.ne_nil_of_length_pos this
  · rw [hlen]
    simp

theorem conversation_length_invariant_witness :
    (pyFalsy (some "k") = false ∧ hasKey [("session_id", "x")] "session_id" = true ∧
      (∀ pr ∈ [("q1", ["a1", "a2"]), ("q2", ([] : List String))], pr.1 ≠ "")) ∧
    ∃ msgs, runSession (some "k") [("session_id", "x")]
        [("q1", ["a1", "a2"]), ("q2", [])] = some msgs ∧ msgs ≠ [] ∧
      msgs.length = 1 + 2 * ([("q1", ["a1", "a2"]), ("q2", ([] : List String))]).length := by
  refine ⟨⟨rfl, rfl, by decide⟩, ?_⟩
  exact conversation_length_invariant (some "k") [("session_id", "x")]
    [("q1", ["a1", "a2"]), ("q2", [])] rfl rfl (by decide)

/-- Modelled from the spec: the cache wrapped around `load_query_engine`
by the `st.cache_resource` decorator (line 36) is external library code,
absent from this repository; its contract is taken from spec section 4.3.
The cache holds at most one built Engine (engines are identified by an
opaque token, here a natural number); `attempts` counts executions of
the build sequence. -/
structure CacheState where
  cached : Option Nat
  attempts : Nat
deriving DecidableEq, Repr

/-- The cache before any call: nothing built yet. -/
def emptyCache : CacheState := ⟨none, 0⟩

/-- Modelled from the spec: one call to `EngineCache.get_or_build()`
(spec section 4.3).  A cached Engine is returned as is; otherwise the
build sequence runs (the builder is indexed by the attempt number so
transient failures can be expressed): on success the Engine is cached
and returned, on failure nothing is cached and the error surfaces to
the caller. -/
def get_or_build (builder : Nat → Except Unit Nat) (s : CacheState) :
    CacheState × Except Unit Nat :=
  match s.cached with
  | some e => (s, Except.ok e)
  | none =>
      match builder s.attempts with
      | Except.ok e => (⟨some e, s.attempts + 1⟩, Except.ok e)
      | Except.error err => (⟨none, s.attempts + 1⟩, Except.error err)

/-- C7: a failed build poisons nothing: the cache retains no
partially-built Engine, the failure surfaces to the caller, and the
next call re-attempts the full build sequence (here succeeding) rather
than returning a broken handle. -/
theorem failed_build_not_cached (builder : Nat → Except Unit Nat) (s : CacheState)
    (e : Nat) (hc : s.cached = none) (hf : builder s.attempts = Except.error ())
    (hs : builder (s.attempts + 1) = Except.ok e) :
    (get_or_build builder s).fst.cached = none ∧
    (get_or_build builder s).snd = Except.error () ∧
    get_or_build builder (get_or_build builder s).fst =
      (⟨some e, s.attempts + 1 + 1⟩, Except.ok e) := by
  simp [get_or_build, hc, hf, hs]

theorem failed_build_not_cached_witness :
    (emptyCache.cached = none ∧
     (fun k => if k = 0 then (Except.error () : Except Unit Nat) else Except.ok 7) 0 =
       Except.error () ∧
     (fun k => if k = 0 then (Except.error () : Except Unit Nat) else Except.ok 7) 1 =
       Except.ok 7) ∧
    ((get_or_build (fun k => if k = 0 then Except.error () else Except.ok 7)
        emptyCache).fst.cached = none ∧
     (get_or_build (fun k => if k = 0 then Except.error () else Except.ok 7)
        emptyCache).snd = Except.error () ∧
     get_or_build (fun k => if k = 0 then Except.error () else Except.ok 7)
        (get_or_build (fun k => if k = 0 then Except.error () else Except.ok 7)
          emptyCache).fst =
       (⟨some 7, emptyCache.attempts + 1 + 1⟩, Except.ok 7)) := by
  refine ⟨⟨rfl, rfl, rfl⟩, ?_⟩
  exact failed_build_not_cached
    (fun k => if k = 0 then Except.error () else Except.ok 7) emptyCache 7 rfl rfl rfl

/-- Modelled from the spec: a builder that always succeeds, building
the Engine identified by `b k` on attempt `k`. -/
def goodBuilder (b : Nat → Nat) : Nat → Except Unit Nat := fun k => Except.ok (b k)

/-- Modelled from the spec: state of N in-process callers racing on the
cache (spec sections 4.3 and 5).  Each caller is `none` while its call
is still pending and `some r` once its call returned `r`. -/
structure ConcState where
  cache : CacheState
  threads : List (Option (Except Unit Nat))
deriving Repr

/-- Modelled from the spec: one scheduler step lets pending caller `i`
run its entire `get_or_build()` call; the mutual exclusion the spec
requires around the build path makes the call's check-then-build
section atomic with respect to the other callers.  Steps naming a
finished caller or an out-of-range index change nothing. -/
def concStep (builder : Nat → Except Unit Nat) (s : ConcState) (i : Nat) : ConcState :=
  match s.threads[i]? with
  | some none =>
      ⟨(get_or_build builder s.cache).fst,
       s.threads.set i (some (get_or_build builder s.cache).snd)⟩
  | _ => s

/-- A concurrent execution: the scheduler interleaves the callers in an
arbitrary order. -/
def concRun (builder : Nat → Except Unit Nat) (s : ConcState) (sched : List Nat) :
    ConcState :=
  sched.foldl (concStep builder) s

/-- N callers, none of which has run yet, over an empty cache. -/
def concStart (n : Nat) : ConcState := ⟨emptyCache, List.replicate n none⟩

/-- Invariant of the racing callers under an always-succeeding
builder: either nothing has run (cache empty, no caller finished) or
the very first build is the only one that ever ran and every finished
caller got that Engine. -/
def ConcInv (b : Nat → Nat) (s : ConcState) : Prop :=
  (s.cache = ⟨none, 0⟩ ∧ ∀ x ∈ s.threads, x = none) ∨
  (s.cache = ⟨some (b 0), 1⟩ ∧
    ∀ x ∈ s.threads, x = none ∨ x = some (Except.ok (b 0)))

/-- Helper: one scheduler step preserves the racing invariant. -/
theorem concStep_inv (b : Nat → Nat) (s : ConcState) (i : Nat) (h : ConcInv b s) :
    ConcInv b (concStep (goodBuilder b) s i) := by
  rcases hg : s.threads[i]? with _ | x
  · simpa [concStep, hg] using h
  · cases x with
    | some r => simpa [concStep, hg] using h
    | none =>
        rcases h with ⟨hcache, hall⟩ | ⟨hcache, hall⟩
        · refine Or.inr ⟨?_, ?_⟩
          · simp [concStep, hg, hcache, get_or_build, goodBuilder]
          · intro x hx
            simp only [concStep, hg] at hx
            rcases List.mem_or_eq_of_mem_set hx with hx' | hx'
            · exact Or.inl (hall x hx')
            · rw [hx']
              simp [hcache, get_or_build, goodBuilder]
        · refine Or.inr ⟨?_, ?_⟩
          · simp [concStep, hg, hcache, get_or_build]
          · intro x hx
            simp only [concStep, hg] at hx
            rcases List.mem_or_eq_of_mem_set hx with hx' | hx'
            · exact hall x hx'
            · rw [hx']
              simp [hcache, get_or_build]

/-- Helper: the racing invariant holds along any schedule. -/
theorem concRun_inv (b : Nat → Nat) (sched : List Nat) :
    ∀ s : ConcState, ConcInv b s → ConcInv b (concRun (goodBuilder b) s sched) := by
  induction sched with
  | nil => exact fun s h => h
  | cons i rest ih =>
      intro s h
      have : concRun (goodBuilder b) s (i :: rest) =
          concRun (goodBuilder b) (concStep (goodBuilder b) s i) rest := by
        simp [concRun]
      rw [this]
      exact ih _ (concStep_inv b s i h)

/-- Helper: scheduling never changes how many callers there are. -/
theorem concRun_threads_length (builder : Nat → Except Unit Nat) (sched : List Nat) :
    ∀ s : ConcState, (concRun builder s sched).threads.length = s.threads.length := by
  induction sched with
  | nil => exact fun s => rfl
  | cons i rest ih =>
      intro s
      have : concRun builder s (i :: rest) =
          concRun builder (concStep builder s i) rest := by
        simp [concRun]
      rw [this, ih]
      rcases hg : s.threads[i]? with _ | x
      · simp [concStep, hg]
      · cases x with
        | some r => simp [concStep, hg]
        | none => simp [concStep, hg]

/-- C8: for every N ≥ 1 and every interleaving of N concurrent
`get_or_build()` calls over an empty cache, once every caller has
finished the build sequence ran exactly once, all N callers received
the same Engine, and any subsequent call returns that same Engine
without building again. -/
theorem concurrent_build_once (b : Nat → Nat) (n : Nat) (sched : List Nat)
    (hn : 1 ≤ n)
    (hdone : ∀ x ∈ (concRun (goodBuilder b) (concStart n) sched).threads,
      x.isSome = true) :
    (concRun (goodBuilder b) (concStart n) sched).cache.attempts = 1 ∧
    (∀ x ∈ (concRun (goodBuilder b) (concStart n) sched).threads,
      x = some (Except.ok (b 0))) ∧
    get_or_build (goodBuilder b) (concRun (goodBuilder b) (concStart n) sched).cache =
      ((concRun (goodBuilder b) (concStart n) sched).cache, Except.ok (b 0)) := by
  have hinv : ConcInv b (concRun (goodBuilder b) (concStart n) sched) := by
    refine concRun_inv b sched (concStart n) (Or.inl ⟨rfl, ?_⟩)
    intro x hx
    exact List.eq_of_mem_replicate hx
  have hne : (concRun (goodBuilder b) (concStart n) sched).threads ≠ [] := by
    have hlen : (concRun (goodBuilder b) (concStart n) sched).threads.length = n := by
      rw [concRun_threads_length]
      simp [concStart]
    intro hnil
    rw [hnil] at hlen
    simp at hlen
    omega
  obtain ⟨x0, hx0⟩ := List.exists_mem_of_ne_nil _ hne
  rcases hinv with ⟨hcache, hall⟩ | ⟨hcache, hall⟩
  · exfalso
    have := hall x0 hx0
    have := hdone x0 hx0
    simp_all
  · refine ⟨by rw [hcache], ?_, ?_⟩
    · intro x hx
      rcases hall x hx with hx' | hx'
      · exfalso
        have := hdone x hx
        simp [hx'] at this
      · exact hx'
    · rw [hcache]
      rfl

theorem concurrent_build_once_witness :
    (1 ≤ 3 ∧
     (∀ x ∈ (concRun (goodBuilder (fun _ => 42)) (concStart 3) [0, 1, 2, 0]).threads,
       x.isSome = true)) ∧
    ((concRun (goodBuilder (fun _ => 42)) (concStart 3) [0, 1, 2, 0]).cache.attempts = 1 ∧
     (∀ x ∈ (concRun (goodBuilder (fun _ => 42)) (concStart 3) [0, 1, 2, 0]).threads,
       x = some (Except.ok 42)) ∧
     get_or_build (goodBuilder (fun _ => 42))
        (concRun (goodBuilder (fun _ => 42)) (concStart 3) [0, 1, 2, 0]).cache =
       ((concRun (goodBuilder (fun _ => 42)) (concStart 3) [0, 1, 2, 0]).cache,
        Except.ok 42)) := by
  refine ⟨⟨by omega, by decide⟩, ?_⟩
  exact concurrent_build_once (fun _ => 42) 3 [0, 1, 2, 0] (by omega) (by decide)
